import Mathlib

/-!
# avsis: matrix-multiply benchmark (`main.cpp`)

A shallow embedding of the benchmark's functions and the properties of them
that the specification states.

* A `T**` matrix is a list of rows; the dimension travels separately, as in
  the source.
* The element type's arithmetic is a record `Arith T` (zero, `+`, `*`), so
  the one embedding of `multiply_matrix` serves `int` (wrapping at 32 bits)
  and exact integer arithmetic alike.
* `float` values of the reporter are read as rationals; `clock_t` is a signed
  64-bit integer whose sums wrap.
* Output is a record of what was written to standard output, to standard
  error and to `results.csv`.
-/

set_option linter.unusedVariables false

namespace Avsis

/-! ## Element arithmetic -/

/-- The arithmetic of an element type `T`: the value of `T{0}`, `+` and `*`. -/
structure Arith (T : Type) where
  zero : T
  add : T → T → T
  mul : T → T → T

/-- Reduction of an integer to the signed 32-bit range `[-2^31, 2^31)`. -/
def wrap32 (x : Int) : Int :=
  (x + 2147483648) % 4294967296 - 2147483648

/-- The arithmetic of `int`: every operation wraps modulo `2^32`. -/
def intArith : Arith Int where
  zero := 0
  add := fun x y => wrap32 (x + y)
  mul := fun x y => wrap32 (x * y)

/-- Exact arithmetic on the integers, the reference for `intArith`. -/
def exactArith : Arith Int where
  zero := 0
  add := fun x y => x + y
  mul := fun x y => x * y

/-! ## Matrices -/

/-- A `T**`: a list of rows. -/
abbrev Matrix (T : Type) := List (List T)

/-- The read `matrix[i][j]`. -/
def Matrix.get {T : Type} (ar : Arith T) (matrix : Matrix T) (i j : Nat) : T :=
  (matrix.getD i []).getD j ar.zero

/-- The write `matrix[i][j] = v`. -/
def Matrix.set {T : Type} (matrix : Matrix T) (i j : Nat) (v : T) : Matrix T :=
  List.set matrix i (List.set (matrix.getD i []) j v)

/-- Source `allocate_matrix`: `row` rows of `columns` zero cells
(`new T[columns]{ 0 }`). -/
def allocate_matrix {T : Type} (ar : Arith T) (row columns : Nat) : Matrix T :=
  List.replicate row (List.replicate columns ar.zero)

/-- The innermost loop of `multiply_matrix`, `for (k = 0; k < n; k++)`, on
cell `(i, j)`: `result[i][j] += matrix_a[i][k] * matrix_b[k][j]`. -/
def multiply_loop_k {T : Type} (ar : Arith T) (matrix_a matrix_b : Matrix T)
    (i j n : Nat) (result : Matrix T) : Matrix T :=
  (List.range n).foldl
    (fun r k =>
      r.set i j (ar.add (r.get ar i j) (ar.mul (matrix_a.get ar i k) (matrix_b.get ar k j))))
    result

/-- The middle loop of `multiply_matrix`, `for (j = 0; j < m; j++)`, on row
`i`; each iteration runs the innermost loop up to `size_a`. -/
def multiply_loop_j {T : Type} (ar : Arith T) (size_a : Nat) (matrix_a matrix_b : Matrix T)
    (i m : Nat) (result : Matrix T) : Matrix T :=
  (List.range m).foldl (fun r j => multiply_loop_k ar matrix_a matrix_b i j size_a r) result

/-- The outer loop of `multiply_matrix`, `for (i = 0; i < l; i++)`; each
iteration runs the middle loop up to `size_b`. -/
def multiply_loop_i {T : Type} (ar : Arith T) (size_a size_b : Nat)
    (matrix_a matrix_b : Matrix T) (l : Nat) (result : Matrix T) : Matrix T :=
  (List.range l).foldl
    (fun r i => multiply_loop_j ar size_a matrix_a matrix_b i size_b r) result

/-- Source `multiply_matrix`: `none` is the `nullptr` result. -/
def multiply_matrix {T : Type} (ar : Arith T) (size_a : Nat) (matrix_a : Matrix T)
    (size_b : Nat) (matrix_b : Matrix T) : Option (Matrix T) :=
  if size_a ≠ size_b then none
  else
    let result := allocate_matrix ar size_a size_b
    some (multiply_loop_i ar size_a size_b matrix_a matrix_b size_a result)

/-! ## Reporter -/

/-- Reduction of an integer to the signed 64-bit range `[-2^63, 2^63)`. -/
def wrap64 (x : Int) : Int :=
  (x + 9223372036854775808) % 18446744073709551616 - 9223372036854775808

/-- A sample: the tick count `end_time - start_time` of one multiplication.
`clock_t` is the platform's `long`, a signed 64-bit integer; its `+` and `-`
are followed by `wrap64`, the result the compiled program gives when a sum
leaves the range. -/
abbrev clock_t := Int

/-- Source `get_average`; `CLOCKS_PER_SEC` is the platform's constant. The
accumulator `average` is a `clock_t`. -/
def get_average (CLOCKS_PER_SEC : ℚ) (results : List clock_t) : ℚ :=
  let average : clock_t :=
    results.foldl (fun (average : clock_t) (result : clock_t) => wrap64 (average + result)) 0
  (average : ℚ) / (results.length : ℚ) / CLOCKS_PER_SEC

/-- Source `get_gibson_performance`. -/
def get_gibson_performance (CLOCKS_PER_SEC : ℚ) (results : List clock_t) : ℚ :=
  let probability : ℚ := 1 / (results.length : ℚ)
  let performance : ℚ :=
    results.foldl
      (fun (performance : ℚ) (result : clock_t) =>
        performance + probability * ((result : ℚ) / CLOCKS_PER_SEC)) 0
  1 / performance

/-- One report line: the thirteen arguments of the format
`%s;%s;%s;%s;%d;%s;%lf;%lu;%lf;%lf;%lf;%lf;%lf`, in order. -/
structure Row where
  cpu_model : String
  task : String
  operand_type : String
  optimization_flags : String
  instruction_count : Int
  timer : String
  time : ℚ
  launch_number : Nat
  average_time : ℚ
  absolute_error : ℚ
  relative_error : ℚ
  gibson_performance : ℚ
  omega : ℚ
  deriving DecidableEq

/-- What the program has written: the lines on standard output, the messages
on standard error, and the lines of `results.csv`. -/
structure Output where
  stdout : List Row
  stderr : List String
  file : List Row
  deriving DecidableEq

/-- How a run ends: it returns, or it uses the null `FILE*`. -/
inductive Status where
  | returned
  | null_stream
  deriving DecidableEq

/-- The `for (auto result: results)` loop of `process_results` over the
samples still to report; `stream` tells whether `fopen` gave a handle. The
`fprintf` on a null handle ends the run. -/
def process_results_loop (CLOCKS_PER_SEC : ℚ) (results : List clock_t)
    (operand_type optimization_flags cpu_model task : String) (instruction_count : Int)
    (timer : String) (average_time : ℚ) (stream : Bool) :
    List clock_t → Nat → Output → Output × Status
  | [], _, out => (out, Status.returned)
  | result :: rest, launch_number, out =>
    let time : ℚ := (result : ℚ) / CLOCKS_PER_SEC
    let absolute_error : ℚ := time - average_time
    let relative_error : ℚ := absolute_error / (result : ℚ) * 100
    let gibson_performance : ℚ := get_gibson_performance CLOCKS_PER_SEC results
    let omega : ℚ := (100 * 100 * 100) / (result : ℚ)
    let printed : Output :=
      { out with stdout := out.stdout ++
          [Row.mk cpu_model task operand_type optimization_flags instruction_count timer time
            launch_number average_time absolute_error relative_error gibson_performance omega] }
    if stream then
      let logged : Output :=
        { printed with file := printed.file ++
            [Row.mk cpu_model task operand_type optimization_flags instruction_count timer time
              launch_number average_time absolute_error relative_error gibson_performance
              omega] }
      process_results_loop CLOCKS_PER_SEC results operand_type optimization_flags cpu_model task
        instruction_count timer average_time stream rest (launch_number + 1) logged
    else (printed, Status.null_stream)

/-- Source `process_results`. `fopen_ok` is whether `fopen("results.csv", "a+")`
returns a handle. After the loop `fflush(stream)` is harmless on a null handle
and `fclose(stream)` is not. -/
def process_results (CLOCKS_PER_SEC : ℚ) (fopen_ok : Bool) (results : List clock_t)
    (operand_type optimization_flags : String) (out : Output) : Output × Status :=
  let average_time := get_average CLOCKS_PER_SEC results
  let cpu_model := "Intel(R) Xeon(R) CPU (1 vCPU)"
  let task := "matrix multiply"
  let instruction_count : Int := 100 * 100 * 100
  let timer := "clock()"
  let opened : Output :=
    if fopen_ok then out else { out with stderr := out.stderr ++ ["can not open file"] }
  match process_results_loop CLOCKS_PER_SEC results operand_type optimization_flags cpu_model
      task instruction_count timer average_time fopen_ok results 1 opened with
  | (done, Status.returned) =>
    if fopen_ok then (done, Status.returned) else (done, Status.null_stream)
  | (done, Status.null_stream) => (done, Status.null_stream)

/-- Source `benchmark`. `start_time i` and `end_time i` are the two `clock()`
readings of trial `i`; the operand matrices and the product are allocated,
filled, multiplied and freed inside each trial and reach the report only
through these readings. -/
def benchmark (CLOCKS_PER_SEC : ℚ) (fopen_ok : Bool) (start_time end_time : Nat → clock_t)
    (operations_amount : Nat) (operand_type optimization_flags : String) (out : Output) :
    Output × Status :=
  let results : List clock_t :=
    (List.range operations_amount).foldl
      (fun results i => List.set results i (wrap64 (end_time i - start_time i)))
      (List.replicate operations_amount 0)
  process_results CLOCKS_PER_SEC fopen_ok results operand_type optimization_flags out

/-- The argument check that opens source `main`:
`if (argc < 3) std::cerr << "arguments required"`. -/
def main_argument_check (argc : Nat) (out : Output) : Output :=
  if argc < 3 then { out with stderr := out.stderr ++ ["arguments required"] } else out

/-! ## Specification-side definitions -/

/-- A matrix of `rows` rows, each of `columns` cells. -/
def HasDims {T : Type} (rows columns : Nat) (m : Matrix T) : Prop :=
  m.length = rows ∧ ∀ row ∈ m, row.length = columns

/-- Every cell of the matrix lies between `lo` and `hi`. -/
def InRange (lo hi : Int) (m : Matrix Int) : Prop :=
  ∀ row ∈ m, ∀ x ∈ row, lo ≤ x ∧ x ≤ hi

instance {T : Type} (R C : Nat) (m : Matrix T) : Decidable (HasDims R C m) := by
  unfold HasDims; infer_instance

instance (lo hi : Int) (m : Matrix Int) : Decidable (InRange lo hi m) := by
  unfold InRange; infer_instance

/-- The sum `start + a[i][0] * b[0][j] + ... + a[i][n-1] * b[n-1][j]`, added
from left to right in the arithmetic `ar`: the dot product of row `i` of `a`
and column `j` of `b` over the first `n` indices. -/
def accumulate {T : Type} (ar : Arith T) (a b : Matrix T) (i j : Nat) (start : T) (n : Nat) : T :=
  (List.range n).foldl (fun acc k => ar.add acc (ar.mul (a.get ar i k) (b.get ar k j))) start

/-- The state of `multiply_matrix` on two `N`×`N` operands at the moment the
innermost loop has made `n` iterations on cell `(i, j)`: rows before `i` are
done, in row `i` the columns before `j` are done. -/
def multiply_state {T : Type} (ar : Arith T) (N : Nat) (a b : Matrix T) (i j n : Nat) :
    Matrix T :=
  multiply_loop_k ar a b i j n
    (multiply_loop_j ar N a b i j
      (multiply_loop_i ar N N a b i (allocate_matrix ar N N)))

/-- The report line of one sample as the specification gives it, field by
field. -/
def report_row (CLOCKS_PER_SEC : ℚ) (results : List clock_t)
    (operand_type optimization_flags : String) (result : clock_t) (launch_number : Nat) : Row where
  cpu_model := "Intel(R) Xeon(R) CPU (1 vCPU)"
  task := "matrix multiply"
  operand_type := operand_type
  optimization_flags := optimization_flags
  instruction_count := 1000000
  timer := "clock()"
  time := (result : ℚ) / CLOCKS_PER_SEC
  launch_number := launch_number
  average_time := get_average CLOCKS_PER_SEC results
  absolute_error := (result : ℚ) / CLOCKS_PER_SEC - get_average CLOCKS_PER_SEC results
  relative_error :=
    ((result : ℚ) / CLOCKS_PER_SEC - get_average CLOCKS_PER_SEC results) / (result : ℚ) * 100
  gibson_performance := get_gibson_performance CLOCKS_PER_SEC results
  omega := 1000000 / (result : ℚ)

/-- The report lines of the samples `rest`, numbered from `launch_number`. -/
def report_rows (CLOCKS_PER_SEC : ℚ) (results : List clock_t)
    (operand_type optimization_flags : String) : List clock_t → Nat → List Row
  | [], _ => []
  | result :: rest, launch_number =>
    report_row CLOCKS_PER_SEC results operand_type optimization_flags result launch_number ::
      report_rows CLOCKS_PER_SEC results operand_type optimization_flags rest (launch_number + 1)

/-! ## Matrices: reads, writes and dimensions -/

theorem hasDims_allocate {T : Type} (ar : Arith T) (R C : Nat) :
    HasDims R C (allocate_matrix ar R C) := by
  refine ⟨by simp [allocate_matrix], ?_⟩
  intro row h
  rw [allocate_matrix, List.mem_replicate] at h
  rw [h.2, List.length_replicate]

theorem hasDims_row {T : Type} {R C : Nat} {m : Matrix T} (h : HasDims R C m) {i : Nat}
    (hi : i < R) : (m.getD i []).length = C := by
  have hlt : i < m.length := by rw [h.1]; exact hi
  rw [List.getD_eq_getElem?_getD, List.getElem?_eq_getElem hlt]
  exact h.2 _ (List.getElem_mem _)

theorem hasDims_set {T : Type} {R C : Nat} {m : Matrix T} (h : HasDims R C m) (i j : Nat)
    (v : T) : HasDims R C (m.set i j v) := by
  refine ⟨by simp [Matrix.set, h.1], ?_⟩
  intro row hrow
  rcases List.mem_or_eq_of_mem_set hrow with hmem | heq
  · exact h.2 row hmem
  · rw [heq, List.length_set]
    by_cases hi : i < m.length
    · exact hasDims_row h (by rw [← h.1]; exact hi)
    · rw [Matrix.set, List.set_eq_of_length_le (Nat.le_of_not_lt hi)] at hrow
      have hlen := h.2 row hrow
      rw [heq, List.length_set] at hlen
      exact hlen

theorem get_set_same {T : Type} (ar : Arith T) {R C : Nat} {m : Matrix T} (h : HasDims R C m)
    {i j : Nat} (hi : i < R) (hj : j < C) (v : T) : (m.set i j v).get ar i j = v := by
  have hlt : i < m.length := by rw [h.1]; exact hi
  have hrow := hasDims_row h hi
  simp only [Matrix.get, Matrix.set, List.getD_eq_getElem?_getD]
  rw [List.getElem?_set_self hlt]
  simp only [Option.getD_some]
  rw [List.getElem?_set_self (by rw [← List.getD_eq_getElem?_getD, hrow]; exact hj)]
  rfl

theorem get_set_other {T : Type} (ar : Arith T) (m : Matrix T) (i j i2 j2 : Nat) (v : T)
    (hne : ¬ (i2 = i ∧ j2 = j)) : (m.set i j v).get ar i2 j2 = m.get ar i2 j2 := by
  simp only [Matrix.get, Matrix.set, List.getD_eq_getElem?_getD]
  by_cases hi : i = i2
  · subst hi
    have hj : j ≠ j2 := fun e => hne ⟨rfl, e.symm⟩
    by_cases hlt : i < m.length
    · rw [List.getElem?_set_self hlt]
      simp only [Option.getD_some]
      rw [List.getElem?_set_ne hj]
    · rw [List.set_eq_of_length_le (Nat.le_of_not_lt hlt)]
  · rw [List.getElem?_set_ne hi]

/-! ## The three loops of `multiply_matrix` -/

theorem accumulate_succ {T : Type} (ar : Arith T) (a b : Matrix T) (i j : Nat) (start : T)
    (n : Nat) : accumulate ar a b i j start (n + 1)
      = ar.add (accumulate ar a b i j start n) (ar.mul (a.get ar i n) (b.get ar n j)) := by
  simp [accumulate, List.range_succ, List.foldl_append]

theorem multiply_loop_k_succ {T : Type} (ar : Arith T) (a b : Matrix T) (i j n : Nat)
    (r : Matrix T) : multiply_loop_k ar a b i j (n + 1) r
      = (multiply_loop_k ar a b i j n r).set i j
          (ar.add ((multiply_loop_k ar a b i j n r).get ar i j)
            (ar.mul (a.get ar i n) (b.get ar n j))) := by
  simp [multiply_loop_k, List.range_succ, List.foldl_append]

theorem multiply_loop_k_spec {T : Type} (ar : Arith T) (a b : Matrix T) {R C : Nat} {i j : Nat}
    (hi : i < R) (hj : j < C) (n : Nat) (r : Matrix T) (hr : HasDims R C r) :
    HasDims R C (multiply_loop_k ar a b i j n r) ∧
      ∀ i2 j2, (multiply_loop_k ar a b i j n r).get ar i2 j2
        = if i2 = i ∧ j2 = j then accumulate ar a b i j (r.get ar i j) n else r.get ar i2 j2 := by
  induction n with
  | zero =>
    refine ⟨hr, ?_⟩
    intro i2 j2
    by_cases h : i2 = i ∧ j2 = j
    · rw [if_pos h, h.1, h.2]; rfl
    · rw [if_neg h]; rfl
  | succ n ih =>
    rw [multiply_loop_k_succ]
    refine ⟨hasDims_set ih.1 _ _ _, ?_⟩
    intro i2 j2
    by_cases h : i2 = i ∧ j2 = j
    · rw [if_pos h, h.1, h.2, get_set_same ar ih.1 hi hj, accumulate_succ, ih.2 i j,
        if_pos ⟨rfl, rfl⟩]
    · rw [if_neg h, get_set_other ar _ _ _ _ _ _ h, ih.2 i2 j2, if_neg h]

theorem multiply_loop_j_succ {T : Type} (ar : Arith T) (N : Nat) (a b : Matrix T) (i m : Nat)
    (r : Matrix T) : multiply_loop_j ar N a b i (m + 1) r
      = multiply_loop_k ar a b i m N (multiply_loop_j ar N a b i m r) := by
  simp [multiply_loop_j, List.range_succ, List.foldl_append]

theorem multiply_loop_j_spec {T : Type} (ar : Arith T) (N : Nat) (a b : Matrix T) {R C : Nat}
    {i : Nat} (hi : i < R) (m : Nat) (hm : m ≤ C) (r : Matrix T) (hr : HasDims R C r) :
    HasDims R C (multiply_loop_j ar N a b i m r) ∧
      ∀ i2 j2, (multiply_loop_j ar N a b i m r).get ar i2 j2
        = if i2 = i ∧ j2 < m then accumulate ar a b i j2 (r.get ar i j2) N
          else r.get ar i2 j2 := by
  induction m with
  | zero =>
    refine ⟨hr, ?_⟩
    intro i2 j2
    rw [if_neg (fun h => Nat.not_lt_zero _ h.2)]; rfl
  | succ m ih =>
    have ihm := ih (Nat.le_of_succ_le hm)
    have hk := multiply_loop_k_spec ar a b hi (Nat.lt_of_succ_le hm) N _ ihm.1
    rw [multiply_loop_j_succ]
    refine ⟨hk.1, ?_⟩
    intro i2 j2
    rw [hk.2 i2 j2]
    by_cases h : i2 = i ∧ j2 = m
    · rw [if_pos h, h.2, if_pos ⟨h.1, Nat.lt_succ_self m⟩, ihm.2 i m,
        if_neg (fun h2 => Nat.lt_irrefl m h2.2)]
    · rw [if_neg h, ihm.2 i2 j2]
      by_cases h2 : i2 = i ∧ j2 < m
      · rw [if_pos h2, if_pos ⟨h2.1, Nat.lt_succ_of_lt h2.2⟩]
      · rw [if_neg h2, if_neg]
        intro h3
        rcases Nat.lt_succ_iff_lt_or_eq.1 h3.2 with h4 | h4
        · exact h2 ⟨h3.1, h4⟩
        · exact h ⟨h3.1, h4⟩

theorem multiply_loop_i_succ {T : Type} (ar : Arith T) (N M : Nat) (a b : Matrix T) (l : Nat)
    (r : Matrix T) : multiply_loop_i ar N M a b (l + 1) r
      = multiply_loop_j ar N a b l M (multiply_loop_i ar N M a b l r) := by
  simp [multiply_loop_i, List.range_succ, List.foldl_append]

theorem multiply_loop_i_spec {T : Type} (ar : Arith T) (N : Nat) (a b : Matrix T) {R C : Nat}
    (l : Nat) (hl : l ≤ R) (r : Matrix T) (hr : HasDims R C r) :
    HasDims R C (multiply_loop_i ar N C a b l r) ∧
      ∀ i2 j2, (multiply_loop_i ar N C a b l r).get ar i2 j2
        = if i2 < l ∧ j2 < C then accumulate ar a b i2 j2 (r.get ar i2 j2) N
          else r.get ar i2 j2 := by
  induction l with
  | zero =>
    refine ⟨hr, ?_⟩
    intro i2 j2
    rw [if_neg (fun h => Nat.not_lt_zero _ h.1)]; rfl
  | succ l ih =>
    have ihl := ih (Nat.le_of_succ_le hl)
    have hjs := multiply_loop_j_spec ar N a b (Nat.lt_of_succ_le hl) C (Nat.le_refl C) _ ihl.1
    rw [multiply_loop_i_succ]
    refine ⟨hjs.1, ?_⟩
    intro i2 j2
    rw [hjs.2 i2 j2]
    by_cases h : i2 = l ∧ j2 < C
    · rw [if_pos h, h.1, if_pos ⟨Nat.lt_succ_self l, h.2⟩, ihl.2 l j2,
        if_neg (fun h2 => Nat.lt_irrefl l h2.1)]
    · rw [if_neg h, ihl.2 i2 j2]
      by_cases h2 : i2 < l ∧ j2 < C
      · rw [if_pos h2, if_pos ⟨Nat.lt_succ_of_lt h2.1, h2.2⟩]
      · rw [if_neg h2, if_neg]
        intro h3
        rcases Nat.lt_succ_iff_lt_or_eq.1 h3.1 with h4 | h4
        · exact h2 ⟨h4, h3.2⟩
        · exact h ⟨h4, h3.2⟩

theorem get_allocate {T : Type} (ar : Arith T) (R C i j : Nat) :
    (allocate_matrix ar R C).get ar i j = ar.zero := by
  simp only [Matrix.get, allocate_matrix, List.getD_eq_getElem?_getD, List.getElem?_replicate]
  by_cases hi : i < R
  · by_cases hj : j < C
    · simp [hi, hj]
    · simp [hi, hj]
  · simp [hi]


theorem multiply_matrix_eq {T : Type} (ar : Arith T) (N : Nat) (a b : Matrix T) :
    multiply_matrix ar N a N b
      = some (multiply_loop_i ar N N a b N (allocate_matrix ar N N)) := by
  simp [multiply_matrix]

theorem multiply_matrix_spec {T : Type} (ar : Arith T) (N : Nat) (a b : Matrix T) :
    ∃ r, multiply_matrix ar N a N b = some r ∧ HasDims N N r ∧
      ∀ i j, i < N → j < N → r.get ar i j = accumulate ar a b i j ar.zero N := by
  have h := multiply_loop_i_spec ar N a b N (Nat.le_refl N) _ (hasDims_allocate ar N N)
  refine ⟨_, multiply_matrix_eq ar N a b, h.1, ?_⟩
  intro i j hi hj
  rw [h.2 i j, if_pos ⟨hi, hj⟩, get_allocate]

theorem multiply_state_spec {T : Type} (ar : Arith T) (N : Nat) (a b : Matrix T) {i j : Nat}
    (hi : i < N) (hj : j < N) (n : Nat) :
    HasDims N N (multiply_state ar N a b i j n) ∧
      ∀ i2 j2, (multiply_state ar N a b i j n).get ar i2 j2
        = if i2 = i ∧ j2 = j then accumulate ar a b i j ar.zero n
          else if i2 = i ∧ j2 < j then accumulate ar a b i j2 ar.zero N
          else if i2 < i ∧ j2 < N then accumulate ar a b i2 j2 ar.zero N
          else ar.zero := by
  have h1 := multiply_loop_i_spec ar N a b i (Nat.le_of_lt hi) _ (hasDims_allocate ar N N)
  have h2 := multiply_loop_j_spec ar N a b hi j (Nat.le_of_lt hj) _ h1.1
  have h3 := multiply_loop_k_spec ar a b hi hj n _ h2.1
  refine ⟨h3.1, ?_⟩
  intro i2 j2
  have hrow : ∀ c, (multiply_loop_i ar N N a b i (allocate_matrix ar N N)).get ar i c
      = ar.zero := by
    intro c
    rw [h1.2 i c, if_neg (fun h => Nat.lt_irrefl i h.1), get_allocate]
  have hcell : (multiply_loop_j ar N a b i j
      (multiply_loop_i ar N N a b i (allocate_matrix ar N N))).get ar i j = ar.zero := by
    rw [h2.2 i j, if_neg (fun h => Nat.lt_irrefl j h.2), hrow]
  unfold multiply_state
  rw [h3.2 i2 j2, hcell]
  by_cases c1 : i2 = i ∧ j2 = j
  · rw [if_pos c1, if_pos c1]
  · rw [if_neg c1, if_neg c1, h2.2 i2 j2, hrow]
    by_cases c2 : i2 = i ∧ j2 < j
    · rw [if_pos c2, if_pos c2]
    · rw [if_neg c2, if_neg c2, h1.2 i2 j2, get_allocate]

/-! ## `int` arithmetic -/

theorem wrap32_add_mul (s x y : Int) :
    wrap32 (wrap32 s + wrap32 (x * y)) = wrap32 (s + x * y) := by
  generalize x * y = p
  unfold wrap32
  omega

theorem wrap32_of_bounds {x : Int} (h0 : 0 ≤ x) (h1 : x ≤ 100000000) : wrap32 x = x := by
  unfold wrap32
  omega

theorem accumulate_intArith (a b : Matrix Int) (i j n : Nat) :
    accumulate intArith a b i j intArith.zero n
      = wrap32 (∑ k ∈ Finset.range n, a.get intArith i k * b.get intArith k j) := by
  induction n with
  | zero => simp [accumulate, intArith, wrap32]
  | succ n ih =>
    rw [accumulate_succ, ih, Finset.sum_range_succ]
    exact wrap32_add_mul _ _ _

theorem accumulate_exactArith (a b : Matrix Int) (i j n : Nat) :
    accumulate exactArith a b i j exactArith.zero n
      = ∑ k ∈ Finset.range n, a.get intArith i k * b.get intArith k j := by
  induction n with
  | zero => simp [accumulate, exactArith]
  | succ n ih =>
    rw [accumulate_succ, ih, Finset.sum_range_succ]
    rfl

theorem get_inRange {lo hi : Int} (hlo : lo ≤ 0) (hhi : 0 ≤ hi) {m : Matrix Int}
    (h : InRange lo hi m) (i j : Nat) :
    lo ≤ m.get intArith i j ∧ m.get intArith i j ≤ hi := by
  simp only [Matrix.get, List.getD_eq_getElem?_getD]
  by_cases hi2 : i < m.length
  · rw [List.getElem?_eq_getElem hi2, Option.getD_some]
    by_cases hj : j < m[i].length
    · rw [List.getElem?_eq_getElem hj, Option.getD_some]
      exact h _ (List.getElem_mem _) _ (List.getElem_mem _)
    · rw [List.getElem?_eq_none (Nat.le_of_not_lt hj)]
      exact ⟨hlo, hhi⟩
  · rw [List.getElem?_eq_none (Nat.le_of_not_lt hi2)]
    exact ⟨hlo, hhi⟩

theorem exact_sum_bounds {a b : Matrix Int} (ha : InRange 0 1000 a) (hb : InRange 0 1000 b)
    (i j n : Nat) :
    0 ≤ ∑ k ∈ Finset.range n, a.get intArith i k * b.get intArith k j ∧
      ∑ k ∈ Finset.range n, a.get intArith i k * b.get intArith k j ≤ (n : Int) * 1000000 := by
  induction n with
  | zero => simp
  | succ n ih =>
    rw [Finset.sum_range_succ]
    have hx := get_inRange (le_refl 0) (by decide) ha i n
    have hy := get_inRange (le_refl 0) (by decide) hb n j
    have hp0 : 0 ≤ a.get intArith i n * b.get intArith n j := mul_nonneg hx.1 hy.1
    have hp1 : a.get intArith i n * b.get intArith n j ≤ 1000 * 1000 :=
      mul_le_mul hx.2 hy.2 hy.1 (by decide)
    push_cast
    constructor
    · linarith [ih.1]
    · linarith [ih.2]

theorem matrix_ext {T : Type} (ar : Arith T) {R C : Nat} {m1 m2 : Matrix T}
    (h1 : HasDims R C m1) (h2 : HasDims R C m2)
    (h : ∀ i j, i < R → j < C → m1.get ar i j = m2.get ar i j) : m1 = m2 := by
  apply List.ext_getElem (by rw [h1.1, h2.1])
  intro i hi1 hi2
  have hiR : i < R := by rw [← h1.1]; exact hi1
  have hr1 : m1[i].length = C := h1.2 _ (List.getElem_mem _)
  have hr2 : m2[i].length = C := h2.2 _ (List.getElem_mem _)
  apply List.ext_getElem (by rw [hr1, hr2])
  intro j hj1 hj2
  have hjC : j < C := by rw [← hr1]; exact hj1
  have := h i j hiR hjC
  simp only [Matrix.get, List.getD_eq_getElem?_getD, List.getElem?_eq_getElem hi1,
    List.getElem?_eq_getElem hi2, Option.getD_some, List.getElem?_eq_getElem hj1,
    List.getElem?_eq_getElem hj2] at this
  exact this

theorem accumulate_int_exact {a b : Matrix Int} (ha : InRange 0 1000 a)
    (hb : InRange 0 1000 b) (i j n : Nat) (hn : n ≤ 100) :
    accumulate intArith a b i j intArith.zero n
      = ∑ k ∈ Finset.range n, a.get intArith i k * b.get intArith k j := by
  rw [accumulate_intArith]
  have h := exact_sum_bounds ha hb i j n
  have hn2 : (n : Int) ≤ 100 := by exact_mod_cast hn
  exact wrap32_of_bounds h.1 (by linarith [h.2])

/-! ## Properties of `multiply_matrix` -/

/-- C1: for every `N` and every two `N`×`N` `int` matrices `a` and `b`,
`multiply_matrix` returns an `N`×`N` matrix whose cell `[i][j]` is the dot
product `Σ_{k<N} a[i][k] * b[k][j]` reduced modulo `2^32`; in every element
arithmetic the cell is that dot product added up from left to right in the
arithmetic; and `[[1,2],[3,4]] × [[5,6],[7,8]] = [[19,22],[43,50]]`. -/
theorem multiply_matrix_dot_product (N : Nat) (a b : Matrix Int) (ha : HasDims N N a)
    (hb : HasDims N N b) :
    (∃ r, multiply_matrix intArith N a N b = some r ∧ HasDims N N r ∧
      ∀ i j, i < N → j < N →
        r.get intArith i j
          = wrap32 (∑ k ∈ Finset.range N, a.get intArith i k * b.get intArith k j)) ∧
    (∀ (T : Type) (ar : Arith T) (x y : Matrix T), HasDims N N x → HasDims N N y →
      ∃ r, multiply_matrix ar N x N y = some r ∧ HasDims N N r ∧
        ∀ i j, i < N → j < N → r.get ar i j = accumulate ar x y i j ar.zero N) ∧
    multiply_matrix intArith 2 [[1, 2], [3, 4]] 2 [[5, 6], [7, 8]]
      = some [[19, 22], [43, 50]] := by
  refine ⟨?_, fun T ar x y _ _ => multiply_matrix_spec ar N x y, by decide⟩
  obtain ⟨r, hr, hd, hc⟩ := multiply_matrix_spec intArith N a b
  refine ⟨r, hr, hd, ?_⟩
  intro i j hi hj
  rw [hc i j hi hj, accumulate_intArith]

/-- Witness of C1 at `[[1,2],[3,4]] × [[5,6],[7,8]]`. -/
theorem multiply_matrix_dot_product_witness :
    HasDims 2 2 ([[1, 2], [3, 4]] : Matrix Int) ∧ HasDims 2 2 ([[5, 6], [7, 8]] : Matrix Int) ∧
    ∃ r, multiply_matrix intArith 2 [[1, 2], [3, 4]] 2 [[5, 6], [7, 8]] = some r ∧
      HasDims 2 2 r ∧
      ∀ i j, i < 2 → j < 2 →
        r.get intArith i j
          = wrap32 (∑ k ∈ Finset.range 2,
              Matrix.get intArith [[1, 2], [3, 4]] i k * Matrix.get intArith [[5, 6], [7, 8]] k j) :=
  ⟨by decide, by decide,
    (multiply_matrix_dot_product 2 [[1, 2], [3, 4]] [[5, 6], [7, 8]] (by decide) (by decide)).1⟩

/-- C2: `multiply_matrix` returns the no-result value exactly when
`size_a ≠ size_b`, whatever the operands are, and returns a matrix exactly when
the sizes are equal; a 2×2 by 3×3 product gives no result. -/
theorem multiply_matrix_none_iff {T : Type} (ar : Arith T) (size_a : Nat) (matrix_a : Matrix T)
    (size_b : Nat) (matrix_b : Matrix T) :
    (multiply_matrix ar size_a matrix_a size_b matrix_b = none ↔ size_a ≠ size_b) ∧
    ((∃ r, multiply_matrix ar size_a matrix_a size_b matrix_b = some r) ↔ size_a = size_b) ∧
    multiply_matrix intArith 2 [[1, 2], [3, 4]] 3 [[5, 6, 1], [7, 8, 1], [1, 1, 1]] = none := by
  refine ⟨?_, ?_, by decide⟩
  · by_cases h : size_a = size_b
    · simp [multiply_matrix, h]
    · simp [multiply_matrix, h]
  · by_cases h : size_a = size_b
    · simp [multiply_matrix, h]
    · simp [multiply_matrix, h]

/-- C10: for 100×100 `int` matrices with all entries in `[0, 1000]`:
(1) at every moment of the run, after `n ≤ 100` steps of the innermost loop
on cell `(i, j)`, every cell of `result` holds an exact sum of products (the
partial sum over `k < n` in cell `(i, j)`, the full sum in the cells already
done, zero in the cells to come) and lies in `[0, 100000000]`, inside the
signed 32-bit range; (2) in each step the product and the new accumulator
value are in range before any reduction, so the step is the exact addition;
(3) the matrix `multiply_matrix` returns is the last of these states; (4) its
cell `[i][j]` is the exact sum `Σ_{k<100} a[i][k] * b[k][j]`; (5) it is the
matrix that exact integer arithmetic gives. -/
theorem multiply_matrix_int_no_overflow (a b : Matrix Int) (ha : HasDims 100 100 a)
    (hb : HasDims 100 100 b) (hra : InRange 0 1000 a) (hrb : InRange 0 1000 b) :
    (∀ i j n, i < 100 → j < 100 → n ≤ 100 → ∀ i2 j2,
      (multiply_state intArith 100 a b i j n).get intArith i2 j2
          = (if i2 = i ∧ j2 = j then
              ∑ k ∈ Finset.range n, a.get intArith i k * b.get intArith k j
            else if i2 = i ∧ j2 < j then
              ∑ k ∈ Finset.range 100, a.get intArith i k * b.get intArith k j2
            else if i2 < i ∧ j2 < 100 then
              ∑ k ∈ Finset.range 100, a.get intArith i2 k * b.get intArith k j2
            else 0) ∧
      0 ≤ (multiply_state intArith 100 a b i j n).get intArith i2 j2 ∧
      (multiply_state intArith 100 a b i j n).get intArith i2 j2 ≤ 100000000 ∧
      (multiply_state intArith 100 a b i j n).get intArith i2 j2 < 2147483648) ∧
    (∀ i j n, i < 100 → j < 100 → n < 100 →
      0 ≤ a.get intArith i n * b.get intArith n j ∧
      a.get intArith i n * b.get intArith n j ≤ 1000000 ∧
      wrap32 (a.get intArith i n * b.get intArith n j)
        = a.get intArith i n * b.get intArith n j ∧
      0 ≤ (multiply_state intArith 100 a b i j n).get intArith i j
            + a.get intArith i n * b.get intArith n j ∧
      (multiply_state intArith 100 a b i j n).get intArith i j
            + a.get intArith i n * b.get intArith n j ≤ 100000000 ∧
      (multiply_state intArith 100 a b i j (n + 1)).get intArith i j
        = (multiply_state intArith 100 a b i j n).get intArith i j
            + a.get intArith i n * b.get intArith n j) ∧
    multiply_matrix intArith 100 a 100 b = some (multiply_state intArith 100 a b 99 99 100) ∧
    (∃ r, multiply_matrix intArith 100 a 100 b = some r ∧ HasDims 100 100 r ∧
      ∀ i j, i < 100 → j < 100 →
        r.get intArith i j
            = ∑ k ∈ Finset.range 100, a.get intArith i k * b.get intArith k j ∧
        0 ≤ r.get intArith i j ∧ r.get intArith i j ≤ 100000000) ∧
    multiply_matrix intArith 100 a 100 b = multiply_matrix exactArith 100 a 100 b := by
  have hbound : ∀ i j n, n ≤ 100 →
      0 ≤ accumulate intArith a b i j intArith.zero n ∧
      accumulate intArith a b i j intArith.zero n ≤ 100000000 := by
    intro i j n hn
    rw [accumulate_int_exact hra hrb i j n hn]
    have h := exact_sum_bounds hra hrb i j n
    have hn2 : (n : Int) ≤ 100 := by exact_mod_cast hn
    exact ⟨h.1, by linarith [h.2]⟩
  have hcellsum : ∀ i j n, i < 100 → j < 100 → n ≤ 100 →
      (multiply_state intArith 100 a b i j n).get intArith i j
        = ∑ k ∈ Finset.range n, a.get intArith i k * b.get intArith k j := by
    intro i j n hi hj hn
    rw [(multiply_state_spec intArith 100 a b hi hj n).2 i j, if_pos ⟨rfl, rfl⟩,
      accumulate_int_exact hra hrb i j n hn]
  refine ⟨?_, ?_, ?_, ?_, ?_⟩
  · intro i j n hi hj hn i2 j2
    have hs := multiply_state_spec intArith 100 a b hi hj n
    have hcell : 0 ≤ (multiply_state intArith 100 a b i j n).get intArith i2 j2 ∧
        (multiply_state intArith 100 a b i j n).get intArith i2 j2 ≤ 100000000 := by
      rw [hs.2 i2 j2]
      split_ifs
      · exact hbound i j n hn
      · exact hbound i j2 100 (Nat.le_refl _)
      · exact hbound i2 j2 100 (Nat.le_refl _)
      · exact ⟨le_refl _, by decide⟩
    refine ⟨?_, hcell.1, hcell.2, by linarith [hcell.2]⟩
    rw [hs.2 i2 j2]
    split_ifs
    · exact accumulate_int_exact hra hrb i j n hn
    · exact accumulate_int_exact hra hrb i j2 100 (Nat.le_refl _)
    · exact accumulate_int_exact hra hrb i2 j2 100 (Nat.le_refl _)
    · rfl
  · intro i j n hi hj hn
    have hx := get_inRange (le_refl 0) (by decide) hra i n
    have hy := get_inRange (le_refl 0) (by decide) hrb n j
    have hp0 : 0 ≤ a.get intArith i n * b.get intArith n j := mul_nonneg hx.1 hy.1
    have hp1 : a.get intArith i n * b.get intArith n j ≤ 1000 * 1000 :=
      mul_le_mul hx.2 hy.2 hy.1 (by decide)
    have hnext := hcellsum i j (n + 1) hi hj (Nat.succ_le_of_lt hn)
    have hcur := hcellsum i j n hi hj (Nat.le_of_lt hn)
    have hb1 := exact_sum_bounds hra hrb i j (n + 1)
    have hn2 : ((n + 1 : Nat) : Int) ≤ 100 := by exact_mod_cast Nat.succ_le_of_lt hn
    rw [Finset.sum_range_succ, ← hcur] at hnext
    rw [Finset.sum_range_succ, ← hcur] at hb1
    refine ⟨hp0, by linarith, wrap32_of_bounds hp0 (by linarith), hb1.1, by linarith [hb1.2],
      hnext⟩
  · rw [multiply_matrix_eq]
    unfold multiply_state
    rw [← multiply_loop_j_succ, ← multiply_loop_i_succ]
  · obtain ⟨r, hr, hd, hc⟩ := multiply_matrix_spec intArith 100 a b
    refine ⟨r, hr, hd, ?_⟩
    intro i j hi hj
    have hbd := hbound i j 100 (Nat.le_refl _)
    rw [← hc i j hi hj] at hbd
    exact ⟨by rw [hc i j hi hj, accumulate_int_exact hra hrb i j 100 (Nat.le_refl _)],
      hbd.1, hbd.2⟩
  · obtain ⟨r1, hr1, hd1, hc1⟩ := multiply_matrix_spec intArith 100 a b
    obtain ⟨r2, hr2, hd2, hc2⟩ := multiply_matrix_spec exactArith 100 a b
    rw [hr1, hr2]
    congr 1
    apply matrix_ext intArith hd1 hd2
    intro i j hi hj
    rw [hc1 i j hi hj, accumulate_int_exact hra hrb i j 100 (Nat.le_refl _)]
    have h2 := hc2 i j hi hj
    rw [accumulate_exactArith] at h2
    exact h2.symm

/-- Witness of C10 at the two matrices whose cells are all 1000: the product
is returned and each of its cells is the exact sum of the hundred products. -/
theorem multiply_matrix_int_no_overflow_witness :
    ∃ r, multiply_matrix intArith 100 (List.replicate 100 (List.replicate 100 1000)) 100 (List.replicate 100 (List.replicate 100 1000)) = some r ∧ HasDims 100 100 r ∧
      ∀ i j, i < 100 → j < 100 →
        r.get intArith i j
            = ∑ k ∈ Finset.range 100,
                Matrix.get intArith (List.replicate 100 (List.replicate 100 1000)) i k * Matrix.get intArith (List.replicate 100 (List.replicate 100 1000)) k j ∧
        0 ≤ r.get intArith i j ∧ r.get intArith i j ≤ 100000000 :=
  (multiply_matrix_int_no_overflow (List.replicate 100 (List.replicate 100 1000)) (List.replicate 100 (List.replicate 100 1000))
    ⟨List.length_replicate _ _, fun row h => by
      rw [(List.mem_replicate.1 h).2, List.length_replicate]⟩
    ⟨List.length_replicate _ _, fun row h => by
      rw [(List.mem_replicate.1 h).2, List.length_replicate]⟩
    (fun row h x hx => by
      rw [(List.mem_replicate.1 h).2] at hx
      rw [(List.mem_replicate.1 hx).2]
      decide)
    (fun row h x hx => by
      rw [(List.mem_replicate.1 h).2] at hx
      rw [(List.mem_replicate.1 hx).2]
      decide)).2.2.2.1

/-! ## The reporter's statistics -/

theorem wrap64_add (x t : Int) : wrap64 (wrap64 x + t) = wrap64 (x + t) := by
  unfold wrap64
  omega

theorem wrap64_of_fits {x : Int} (h0 : -9223372036854775808 ≤ x)
    (h1 : x < 9223372036854775808) : wrap64 x = x := by
  unfold wrap64
  omega

theorem foldl_ticks (results : List clock_t) (acc : clock_t) :
    results.foldl (fun (average : clock_t) (result : clock_t) => wrap64 (average + result))
        (wrap64 acc)
      = wrap64 (acc + results.sum) := by
  induction results generalizing acc with
  | nil => simp
  | cons t rest ih =>
    rw [List.foldl_cons, wrap64_add, ih, List.sum_cons, Int.add_assoc]

theorem sum_ticks_cast (c : ℚ) (results : List clock_t) :
    ((results.sum : Int) : ℚ) / c = (results.map (fun (t : clock_t) => (t : ℚ) / c)).sum := by
  induction results with
  | nil => simp
  | cons t rest ih =>
    rw [List.sum_cons, List.map_cons, List.sum_cons, ← ih]
    push_cast
    ring

theorem foldl_performance (c p : ℚ) (results : List clock_t) (acc : ℚ) :
    results.foldl
        (fun (performance : ℚ) (result : clock_t) => performance + p * ((result : ℚ) / c)) acc
      = acc + p * (results.map (fun (t : clock_t) => (t : ℚ) / c)).sum := by
  induction results generalizing acc with
  | nil => simp
  | cons t rest ih =>
    rw [List.foldl_cons, ih, List.map_cons, List.sum_cons]
    ring

theorem get_average_wrap (CLOCKS_PER_SEC : ℚ) (results : List clock_t) :
    get_average CLOCKS_PER_SEC results
      = ((wrap64 results.sum : Int) : ℚ) / (results.length : ℚ) / CLOCKS_PER_SEC := by
  unfold get_average
  simp only []
  have h := foldl_ticks results 0
  rw [Int.zero_add] at h
  have h0 : wrap64 0 = 0 := by decide
  rw [h0] at h
  rw [h]

theorem get_average_eq (CLOCKS_PER_SEC : ℚ) (results : List clock_t)
    (h0 : -9223372036854775808 ≤ results.sum) (h1 : results.sum < 9223372036854775808) :
    get_average CLOCKS_PER_SEC results
      = (results.map (fun (t : clock_t) => (t : ℚ) / CLOCKS_PER_SEC)).sum
          / (results.length : ℚ) := by
  rw [get_average_wrap, wrap64_of_fits h0 h1, div_right_comm, sum_ticks_cast]

theorem get_gibson_performance_eq (CLOCKS_PER_SEC : ℚ) (results : List clock_t) :
    get_gibson_performance CLOCKS_PER_SEC results
      = 1 / ((results.map (fun (t : clock_t) => (t : ℚ) / CLOCKS_PER_SEC)).sum / (results.length : ℚ)) := by
  unfold get_gibson_performance
  simp only []
  rw [foldl_performance]
  congr 1
  ring

/-! ## The reporter's loop -/

theorem length_report_rows (c : ℚ) (results : List clock_t) (op fl : String)
    (rest : List clock_t) (ln : Nat) : (report_rows c results op fl rest ln).length = rest.length := by
  induction rest generalizing ln with
  | nil => rfl
  | cons t rest ih => simp [report_rows, ih]

theorem getElem?_report_rows (c : ℚ) (results : List clock_t) (op fl : String)
    (rest : List clock_t) (ln n : Nat) :
    (report_rows c results op fl rest ln)[n]?
      = rest[n]?.map (fun t => report_row c results op fl t (ln + n)) := by
  induction rest generalizing ln n with
  | nil => simp [report_rows]
  | cons t rest ih =>
    cases n with
    | zero => simp [report_rows]
    | succ n =>
      simp only [report_rows, List.getElem?_cons_succ, ih]
      congr 1
      funext t
      congr 1
      omega

theorem process_results_loop_open (c : ℚ) (results : List clock_t) (op fl : String)
    (rest : List clock_t) (ln : Nat) (out : Output) :
    process_results_loop c results op fl "Intel(R) Xeon(R) CPU (1 vCPU)" "matrix multiply"
        (100 * 100 * 100) "clock()" (get_average c results) true rest ln out
      = ({ stdout := out.stdout ++ report_rows c results op fl rest ln
           stderr := out.stderr
           file := out.file ++ report_rows c results op fl rest ln }, Status.returned) := by
  induction rest generalizing ln out with
  | nil => simp [process_results_loop, report_rows]
  | cons t rest ih =>
    simp only [process_results_loop, if_true, ih, report_rows, report_row, List.append_assoc,
      List.singleton_append]
    norm_num

theorem process_results_open (c : ℚ) (results : List clock_t) (op fl : String) (out : Output) :
    process_results c true results op fl out
      = ({ stdout := out.stdout ++ report_rows c results op fl results 1
           stderr := out.stderr
           file := out.file ++ report_rows c results op fl results 1 }, Status.returned) := by
  simp only [process_results, if_true, process_results_loop_open]

theorem benchmark_results (f : Nat → clock_t) (R n : Nat) (hn : n ≤ R) :
    ((List.range n).foldl (fun results i => List.set results i (f i))
        (List.replicate R 0)).length = R ∧
    ∀ i, ((List.range n).foldl (fun results i => List.set results i (f i))
        (List.replicate R 0))[i]?
      = if i < n then some (f i) else (List.replicate R (0 : clock_t))[i]? := by
  induction n with
  | zero => simp
  | succ n ih =>
    have ihn := ih (Nat.le_of_succ_le hn)
    rw [List.range_succ, List.foldl_append, List.foldl_cons, List.foldl_nil]
    refine ⟨by rw [List.length_set]; exact ihn.1, ?_⟩
    intro i
    by_cases h : n = i
    · subst h
      rw [List.getElem?_set_self (by rw [ihn.1]; exact Nat.lt_of_succ_le hn),
        if_pos (Nat.lt_succ_self n)]
    · rw [List.getElem?_set_ne h, ihn.2 i]
      by_cases h2 : i < n
      · rw [if_pos h2, if_pos (Nat.lt_succ_of_lt h2)]
      · rw [if_neg h2, if_neg]
        omega

theorem benchmark_results_eq (f : Nat → clock_t) (R : Nat) :
    (List.range R).foldl (fun results i => List.set results i (f i)) (List.replicate R 0)
      = (List.range R).map f := by
  have h := benchmark_results f R R (Nat.le_refl R)
  apply List.ext_getElem?
  intro i
  rw [h.2 i]
  by_cases hi : i < R
  · rw [if_pos hi]
    simp [List.getElem?_map, List.getElem?_range hi]
  · rw [if_neg hi]
    simp [List.getElem?_eq_none, Nat.le_of_not_lt hi]

theorem process_results_closed (c : ℚ) (results : List clock_t) (op fl : String)
    (out : Output) :
    (process_results c false results op fl out).2 = Status.null_stream ∧
    (process_results c false results op fl out).1.stdout.length
      = out.stdout.length + min results.length 1 := by
  cases results with
  | nil => exact ⟨rfl, by simp [process_results, process_results_loop]⟩
  | cons t rest => exact ⟨rfl, by simp [process_results, process_results_loop]⟩

theorem launch_numbers_report_rows (c : ℚ) (results : List clock_t) (op fl : String)
    (rest : List clock_t) (ln : Nat) :
    (report_rows c results op fl rest ln).map Row.launch_number = List.range' ln rest.length := by
  induction rest generalizing ln with
  | nil => rfl
  | cons t rest ih => simp [report_rows, report_row, List.range', ih]

/-! ## Properties of the reporter and of `main` -/

/-- C3, as stated, fails: on the two samples `2^62` and `2^62` ticks the
`clock_t` accumulator leaves the 64-bit range and `get_average` returns
`-2^62 / 1000000`, while the mean of the two durations is `2^62 / 1000000`. -/
theorem get_average_overflow_counterexample :
    1 ≤ ([4611686018427387904, 4611686018427387904] : List clock_t).length ∧
    get_average 1000000 [4611686018427387904, 4611686018427387904] = -(4611686018427387904 : ℚ) / 1000000 ∧
    (([4611686018427387904, 4611686018427387904] : List clock_t).map (fun (t : clock_t) => (t : ℚ) / 1000000)).sum
        / ((([4611686018427387904, 4611686018427387904] : List clock_t).length : Nat) : ℚ)
      = (4611686018427387904 : ℚ) / 1000000 ∧
    get_average 1000000 [4611686018427387904, 4611686018427387904]
      ≠ (([4611686018427387904, 4611686018427387904] : List clock_t).map (fun (t : clock_t) => (t : ℚ) / 1000000)).sum
          / ((([4611686018427387904, 4611686018427387904] : List clock_t).length : Nat) : ℚ) := by
  have h1 : get_average 1000000 [4611686018427387904, 4611686018427387904] = -(4611686018427387904 : ℚ) / 1000000 := by
    rw [get_average_wrap]
    have hw : wrap64 (([4611686018427387904, 4611686018427387904] : List clock_t).sum) = -9223372036854775808 := by decide
    rw [hw]
    norm_num
  have h2 : (([4611686018427387904, 4611686018427387904] : List clock_t).map (fun (t : clock_t) => (t : ℚ) / 1000000)).sum
        / ((([4611686018427387904, 4611686018427387904] : List clock_t).length : Nat) : ℚ)
      = (4611686018427387904 : ℚ) / 1000000 := by
    norm_num
  refine ⟨by decide, h1, h2, ?_⟩
  rw [h1, h2]
  norm_num

/-- C3 (amended): for every sample sequence of length `R ≥ 1` whose sum of
ticks lies in the `clock_t` range `[-2^63, 2^63)`, `get_average` is the
arithmetic mean of the `R` durations in seconds,
`(Σ_i ticks_i / CLOCKS_PER_SEC) / R`. -/
theorem get_average_is_mean (CLOCKS_PER_SEC : ℚ) (results : List clock_t)
    (hR : 1 ≤ results.length) (hlo : -9223372036854775808 ≤ results.sum)
    (hhi : results.sum < 9223372036854775808) :
    get_average CLOCKS_PER_SEC results
      = (results.map (fun (t : clock_t) => (t : ℚ) / CLOCKS_PER_SEC)).sum
          / (results.length : ℚ) :=
  get_average_eq CLOCKS_PER_SEC results hlo hhi

/-- Witness of C3 at the samples 1000 and 3000 ticks, a million ticks per
second. -/
theorem get_average_is_mean_witness :
    get_average 1000000 [1000, 3000]
      = (([1000, 3000] : List clock_t).map (fun (t : clock_t) => (t : ℚ) / 1000000)).sum
          / ((([1000, 3000] : List clock_t).length : Nat) : ℚ) :=
  get_average_is_mean 1000000 [1000, 3000] (by decide) (by decide) (by decide)

/-- C4, as stated, fails: on the two samples `2^62` and `2^62` ticks
`get_gibson_performance`, which sums in `float`, is `1000000 / 2^62`, and the
reciprocal of `get_average`, whose `clock_t` sum has left the 64-bit range,
is `-1000000 / 2^62`. -/
theorem get_gibson_performance_overflow_counterexample :
    1 ≤ ([4611686018427387904, 4611686018427387904] : List clock_t).length ∧
    get_gibson_performance 1000000 [4611686018427387904, 4611686018427387904] = 1000000 / (4611686018427387904 : ℚ) ∧
    1 / get_average 1000000 [4611686018427387904, 4611686018427387904] = -1000000 / (4611686018427387904 : ℚ) ∧
    get_gibson_performance 1000000 [4611686018427387904, 4611686018427387904] ≠ 1 / get_average 1000000 [4611686018427387904, 4611686018427387904] := by
  have h1 : get_gibson_performance 1000000 [4611686018427387904, 4611686018427387904] = 1000000 / (4611686018427387904 : ℚ) := by
    rw [get_gibson_performance_eq]
    norm_num
  have h2 : 1 / get_average 1000000 [4611686018427387904, 4611686018427387904] = -1000000 / (4611686018427387904 : ℚ) := by
    rw [get_average_wrap]
    have hw : wrap64 (([4611686018427387904, 4611686018427387904] : List clock_t).sum) = -9223372036854775808 := by decide
    rw [hw]
    norm_num
  refine ⟨by decide, h1, h2, ?_⟩
  rw [h1, h2]
  norm_num

/-- C4 (amended): for every sample sequence of length `R ≥ 1` whose sum of
ticks lies in the `clock_t` range `[-2^63, 2^63)`, `get_gibson_performance` is
the reciprocal of `get_average`. -/
theorem get_gibson_performance_is_reciprocal (CLOCKS_PER_SEC : ℚ) (results : List clock_t)
    (hR : 1 ≤ results.length) (hlo : -9223372036854775808 ≤ results.sum)
    (hhi : results.sum < 9223372036854775808) :
    get_gibson_performance CLOCKS_PER_SEC results = 1 / get_average CLOCKS_PER_SEC results := by
  rw [get_gibson_performance_eq, get_average_eq CLOCKS_PER_SEC results hlo hhi]

/-- Witness of C4 at the samples 1000 and 3000 ticks. -/
theorem get_gibson_performance_is_reciprocal_witness :
    get_gibson_performance 1000000 [1000, 3000] = 1 / get_average 1000000 [1000, 3000] :=
  get_gibson_performance_is_reciprocal 1000000 [1000, 3000] (by decide) (by decide)
    (by decide)

/-- C5 at its failing input: when `fopen` gives no handle, a `benchmark` run of
`R` trials ends in a use of the null handle having written `min R 1` lines to
standard output, one line of ten for `R = 10`. When `fopen` gives a handle the
run returns having written exactly `R` lines, one per sample in the order of
collection (line `i`, from 0, carries the duration of trial `i`), and the
launch number of line `i` is `i + 1`: the launch numbers are `1, 2, ..., R`. -/
theorem benchmark_emits_rows (CLOCKS_PER_SEC : ℚ) (start_time end_time : Nat → clock_t)
    (R : Nat) (operand_type optimization_flags : String) (out : Output) :
    ((benchmark CLOCKS_PER_SEC false start_time end_time R operand_type optimization_flags
        out).2 = Status.null_stream ∧
      (benchmark CLOCKS_PER_SEC false start_time end_time R operand_type optimization_flags
        out).1.stdout.length = out.stdout.length + min R 1) ∧
    ((benchmark CLOCKS_PER_SEC false start_time end_time 10 operand_type optimization_flags
        ⟨[], [], []⟩).2 = Status.null_stream ∧
      (benchmark CLOCKS_PER_SEC false start_time end_time 10 operand_type optimization_flags
        ⟨[], [], []⟩).1.stdout.length = 1) ∧
    ∃ rows : List Row,
      benchmark CLOCKS_PER_SEC true start_time end_time R operand_type optimization_flags out
        = ({ stdout := out.stdout ++ rows, stderr := out.stderr, file := out.file ++ rows },
            Status.returned) ∧
      rows.length = R ∧
      rows.map Row.launch_number = List.range' 1 R ∧
      ∀ i, i < R →
        rows[i]?.map Row.launch_number = some (i + 1) ∧
        rows[i]?.map Row.time
          = some (((wrap64 (end_time i - start_time i) : clock_t) : ℚ) / CLOCKS_PER_SEC) := by
  have hnull : ∀ (n : Nat) (o : Output),
      (benchmark CLOCKS_PER_SEC false start_time end_time n operand_type optimization_flags
          o).2 = Status.null_stream ∧
      (benchmark CLOCKS_PER_SEC false start_time end_time n operand_type optimization_flags
          o).1.stdout.length = o.stdout.length + min n 1 := by
    intro n o
    unfold benchmark
    simp only []
    rw [benchmark_results_eq (fun i => wrap64 (end_time i - start_time i)) n]
    have h := process_results_closed CLOCKS_PER_SEC
      ((List.range n).map (fun i => wrap64 (end_time i - start_time i)))
      operand_type optimization_flags o
    rw [List.length_map, List.length_range] at h
    exact h
  refine ⟨hnull R out, hnull 10 ⟨[], [], []⟩, ?_⟩
  refine ⟨report_rows CLOCKS_PER_SEC
    ((List.range R).map (fun i => wrap64 (end_time i - start_time i)))
    operand_type optimization_flags
    ((List.range R).map (fun i => wrap64 (end_time i - start_time i))) 1,
    ?_, ?_, ?_, ?_⟩
  · unfold benchmark
    simp only []
    rw [benchmark_results_eq (fun i => wrap64 (end_time i - start_time i)) R,
      process_results_open]
  · rw [length_report_rows, List.length_map, List.length_range]
  · rw [launch_numbers_report_rows, List.length_map, List.length_range]
  · intro i hi
    rw [getElem?_report_rows, List.getElem?_map, List.getElem?_range hi]
    simp [report_row, Nat.add_comm]

/-- C6: with the log file open, the line `process_results` writes for the
sample at position `n`, of raw tick count `t`, has `time = t / CLOCKS_PER_SEC`,
`average_time = get_average` of the whole sequence,
`absolute_error = time - average_time`,
`relative_error = absolute_error / t * 100` and `omega = 100³ / t`. -/
theorem process_results_row_fields (CLOCKS_PER_SEC : ℚ) (results : List clock_t)
    (operand_type optimization_flags : String) (out : Output) (n : Nat)
    (hn : n < results.length) :
    ∃ row : Row,
      (process_results CLOCKS_PER_SEC true results operand_type optimization_flags
          out).1.stdout[out.stdout.length + n]? = some row ∧
      row.time = (results[n] : ℚ) / CLOCKS_PER_SEC ∧
      row.average_time = get_average CLOCKS_PER_SEC results ∧
      row.absolute_error = row.time - row.average_time ∧
      row.relative_error = row.absolute_error / (results[n] : ℚ) * 100 ∧
      row.omega = (100 : ℚ) ^ 3 / (results[n] : ℚ) ∧
      row.gibson_performance = get_gibson_performance CLOCKS_PER_SEC results ∧
      row.launch_number = n + 1 := by
  refine ⟨report_row CLOCKS_PER_SEC results operand_type optimization_flags results[n] (1 + n),
    ?_, rfl, rfl, rfl, rfl, ?_, rfl, Nat.add_comm 1 n⟩
  · rw [process_results_open]
    simp only []
    rw [List.getElem?_append_right (Nat.le_add_right _ _), Nat.add_sub_cancel_left,
      getElem?_report_rows, List.getElem?_eq_getElem hn]
    rfl
  · simp only [report_row]
    norm_num

/-- Witness of C6 at the second of the samples 1000 and 3000 ticks. -/
theorem process_results_row_fields_witness :
    ∃ row : Row,
      (process_results 1000000 true [1000, 3000] "int" "-O3"
          ⟨[], [], []⟩).1.stdout[0 + 1]? = some row ∧
      row.time = (3000 : ℚ) / 1000000 ∧
      row.average_time = get_average 1000000 [1000, 3000] ∧
      row.absolute_error = row.time - row.average_time ∧
      row.relative_error = row.absolute_error / (3000 : ℚ) * 100 ∧
      row.omega = (100 : ℚ) ^ 3 / (3000 : ℚ) ∧
      row.gibson_performance = get_gibson_performance 1000000 [1000, 3000] ∧
      row.launch_number = 1 + 1 := by
  have h := process_results_row_fields 1000000 [1000, 3000] "int" "-O3" ⟨[], [], []⟩ 1
    (by decide)
  simpa using h

/-- C7: with the log file open, one `process_results` run on `R` samples
returns and leaves the log file equal to its former content followed by
exactly the `R` lines it wrote to standard output, in the same order. -/
theorem process_results_appends (CLOCKS_PER_SEC : ℚ) (results : List clock_t)
    (operand_type optimization_flags : String) (out : Output) :
    ∃ lines : List Row,
      lines.length = results.length ∧
      process_results CLOCKS_PER_SEC true results operand_type optimization_flags out
        = ({ stdout := out.stdout ++ lines, stderr := out.stderr, file := out.file ++ lines },
            Status.returned) :=
  ⟨report_rows CLOCKS_PER_SEC results operand_type optimization_flags results 1,
    length_report_rows _ _ _ _ _ _, process_results_open _ _ _ _ _⟩

/-- C8 at its failing input: with two arguments after the program name
(`argc = 3`) the argument check of `main` writes nothing to standard error;
with none or one (`argc = 1`, `argc = 2`) it writes the warning. -/
theorem main_argument_check_two_arguments (out : Output) :
    main_argument_check 3 out = out ∧
    (main_argument_check 1 out).stderr = out.stderr ++ ["arguments required"] ∧
    (main_argument_check 2 out).stderr = out.stderr ++ ["arguments required"] :=
  ⟨rfl, rfl, rfl⟩

/-- C9 at its failing input: when `fopen` gives no handle, `process_results`
never returns normally, it ends in a use of the null handle, having written at
most one line to standard output; on the two samples 1000 and 2000 ticks it
writes one line of the two. -/
theorem process_results_null_stream (CLOCKS_PER_SEC : ℚ) (results : List clock_t)
    (operand_type optimization_flags : String) (out : Output) :
    (process_results CLOCKS_PER_SEC false results operand_type optimization_flags out).2
      = Status.null_stream ∧
    (process_results CLOCKS_PER_SEC false results operand_type optimization_flags
        out).1.stdout.length ≤ out.stdout.length + 1 ∧
    (process_results 1000000 false [1000, 2000] "int" "-O3" ⟨[], [], []⟩).1.stdout.length
      = 1 := by
  refine ⟨?_, ?_, rfl⟩
  · cases results with
    | nil => rfl
    | cons t rest => rfl
  · cases results with
    | nil => simp [process_results, process_results_loop]
    | cons t rest => simp [process_results, process_results_loop]

end Avsis
